import Mathlib

/-!
Shallow embedding of `dags/load_data_to_snowflake.py`.

The repository's reproducible logic is two Python functions:

* `convert_excel_to_csv(excel_path, csv_path)` — loads a workbook with
  `openpyxl.load_workbook`, takes `worksheets[0]`, and writes every row of
  that sheet through `csv.writer(...).writerow` into a freshly opened
  (`'w'`, truncating) destination file;
* `delete_file(file_path)` — calls `os.remove` and swallows
  `FileNotFoundError`, `PermissionError` and any other `Exception`,
  printing a message in each case.

The embedding models cell values as scalars (`None`, text, integer), a
workbook as its list of worksheets (each a list of rows of cell values,
rows anchored at column 1), the filesystem as a partial map from paths
to file data, `openpyxl`'s `iter_rows()` as yielding every row padded to
the sheet's bounding-box width (`max_column`) with empty cells — ragged
source rows are rectangularised, not preserved — and the CPython
`csv` module's writer for the default `excel` dialect: delimiter `,`,
quote char `"`, `QUOTE_MINIMAL`, doubled quotes, `\r\n` line terminator,
and the writer's special case that a record consisting of a single empty
field is written as `""`.  A character-level CSV reader, following the
state machine of CPython's `_csv.c` reader, is defined to state the
round-trip properties.
-/

namespace SumupPipeline

/-- A filesystem path. -/
abbrev Path := String

/-- A scalar cell value as `openpyxl` yields it via `cell.value`:
empty cells read as `None`, text cells as strings, numeric cells as
integers. -/
inductive CellValue where
  | empty
  | str (s : List Char)
  | int (n : Int)
deriving DecidableEq

/-- The text the `csv` writer emits for one cell value: `None` becomes the
empty field, strings are written verbatim, integers via `str(n)`. -/
def cellText : CellValue → List Char
  | .empty => []
  | .str s => s
  | .int n => (toString n).data

/-- The line terminator of the csv `excel` dialect. -/
def crlf : List Char := ['\r', '\n']

/-- Characters that force quoting under `QUOTE_MINIMAL`: the delimiter,
the quote character, and the characters of the line terminator. -/
def isSpecialChar (c : Char) : Bool :=
  c == ',' || c == '"' || c == '\r' || c == '\n'

/-- `QUOTE_MINIMAL`: a field is quoted iff it contains a special
character. -/
def needsQuote (f : List Char) : Bool := f.any isSpecialChar

/-- Quote characters inside a quoted field are doubled
(`doublequote=True`). -/
def escapeQuotes : List Char → List Char
  | [] => []
  | c :: cs => if c = '"' then '"' :: '"' :: escapeQuotes cs else c :: escapeQuotes cs

/-- Rendering of a single field under `QUOTE_MINIMAL`. -/
def renderField (f : List Char) : List Char :=
  if needsQuote f then '"' :: (escapeQuotes f ++ ['"']) else f

/-- The fields of one record joined with the `,` delimiter. -/
def renderRecordBody : List (List Char) → List Char
  | [] => []
  | [f] => renderField f
  | f :: fs => renderField f ++ ',' :: renderRecordBody fs

/-- `csv.writer(csv_file).writerow(row)`: each value is converted to text,
fields are joined with `,`, and the `\r\n` terminator is appended.  A
record consisting of exactly one field that rendered to nothing is
written as `""` (CPython's single-empty-field rule). -/
def writerow (row : List CellValue) : List Char :=
  if row.map cellText = [[]] then '"' :: '"' :: crlf
  else renderRecordBody (row.map cellText) ++ crlf

/-- The sheet's bounding-box width: `openpyxl`'s `max_column`, which in
this row-anchored model is the maximum number of cells over the sheet's
rows. -/
def max_column : List (List CellValue) → Nat
  | [] => 0
  | row :: rest => max row.length (max_column rest)

/-- Padding of one row to width `w`: `iter_rows` materialises an
`EmptyCell` (value `None`) for every column of the bounding box the row
lacks. -/
def padRow (w : Nat) (row : List CellValue) : List CellValue :=
  row ++ List.replicate (w - row.length) .empty

/-- `Worksheet.iter_rows()` with default bounds: it fixes
`min_col = 1, max_col = self.max_column` once for the whole sheet and
yields, for every row, one cell per column in that range, so every
yielded row is padded to the sheet's bounding-box width (ragged source
rows are not preserved). -/
def iter_rows (sheet : List (List CellValue)) : List (List CellValue) :=
  sheet.map (padRow (max_column sheet))

/-- The full text written for a worksheet: `iter_rows()` yields the
bounding-box-padded rows in order and each is passed to `writerow`. -/
def csvContent (sheet : List (List CellValue)) : List Char :=
  ((iter_rows sheet).map writerow).flatten

/-- A workbook: its worksheets in their defined order, each worksheet a
list of rows, each row a list of cell values. -/
structure Workbook where
  worksheets : List (List (List CellValue))
deriving DecidableEq

/-- What a path can hold on the modelled filesystem: a plain text file
(such as a produced CSV), a well-formed spreadsheet workbook, or bytes
that no spreadsheet library can open (corrupt or unsupported format). -/
inductive FileData where
  | text (content : List Char)
  | xlsx (wb : Workbook)
  | corrupt
deriving DecidableEq

/-- The filesystem: a partial map from paths to file data. -/
abbrev FS := Path → Option FileData

/-- Errors the converter can raise: `FileNotFoundError` from
`load_workbook` on a missing path, the `InvalidFileException` /
`BadZipFile` family on a file that is not a readable workbook, and the
`IndexError` of `worksheets[0]` on a workbook with no sheets. -/
inductive ConvError where
  | sourceNotFound
  | sourceUnreadable
  | noWorksheet
deriving DecidableEq

/-- `openpyxl.load_workbook(path)`: raises if the path is missing or does
not hold a readable workbook. -/
def load_workbook (fs : FS) (path : Path) : Except ConvError Workbook :=
  match fs path with
  | none => .error .sourceNotFound
  | some (.xlsx wb) => .ok wb
  | some _ => .error .sourceUnreadable

/-- `convert_excel_to_csv(excel_path, csv_path)`: load the workbook, take
`worksheets[0]`, then open the destination (`'w'`: created, truncated if
present) and write every row of the sheet.  An exception raised while
loading the workbook or selecting the sheet propagates before the
destination is opened, leaving the filesystem untouched. -/
def convert_excel_to_csv (fs : FS) (excel_path csv_path : Path) :
    Except ConvError Unit × FS :=
  match load_workbook fs excel_path with
  | .error e => (.error e, fs)
  | .ok excel_file =>
    match excel_file.worksheets with
    | [] => (.error .noWorksheet, fs)
    | data_sheet :: _ =>
      (.ok (), fun p => if p = csv_path then some (.text (csvContent data_sheet)) else fs p)

/-- Errors `os.remove` can raise: `FileNotFoundError`, `PermissionError`,
or any other `OSError` (file in use, I/O failure, ...). -/
inductive OsError where
  | fileNotFound
  | permissionDenied
  | other (msg : String)
deriving DecidableEq

/-- The operating-system state seen by `delete_file`: the files, which
paths the OS permits deleting, and an optional unexpected fault the OS
reports when a given path is removed. -/
structure Sys where
  files : Path → Option FileData
  deletable : Path → Bool
  osFault : Path → Option String

/-- `os.remove(path)`: `FileNotFoundError` when nothing is at `path`,
`PermissionError` when deletion is not permitted, any other OS fault as a
generic error; otherwise the file is removed. -/
def os_remove (s : Sys) (path : Path) : Except OsError Unit × Sys :=
  match s.files path with
  | none => (.error .fileNotFound, s)
  | some _ =>
    if s.deletable path then
      match s.osFault path with
      | some m => (.error (.other m), s)
      | none => (.ok (), { s with files := fun p => if p = path then none else s.files p })
    else (.error .permissionDenied, s)

/-- The text a caught exception prints in the catch-all branch. -/
def errorMessage : OsError → String
  | .fileNotFound => "file not found"
  | .permissionDenied => "permission denied"
  | .other m => m

/-- `delete_file(file_path)`: try `os.remove`; `except FileNotFoundError`,
`except PermissionError` and `except Exception` each print a message and
return normally, so no error escapes.  The result is the system state
after the attempt together with the printed lines. -/
def delete_file (s : Sys) (file_path : Path) : Except OsError (Sys × List String) :=
  match os_remove s file_path with
  | (.ok _, s1) => .ok (s1, ["File " ++ file_path ++ " has been deleted."])
  | (.error .fileNotFound, s1) => .ok (s1, ["File " ++ file_path ++ " not found."])
  | (.error .permissionDenied, s1) =>
      .ok (s1, ["Permission denied for deleting " ++ file_path ++ "."])
  | (.error e, s1) => .ok (s1, ["An error occurred: " ++ errorMessage e])

/-! ### A standard CSV reader

A character-level reader for the `excel` dialect, following the state
machine of CPython's `_csv.c` (`START_RECORD`, `START_FIELD`, `IN_FIELD`,
`IN_QUOTED_FIELD`, `QUOTE_IN_QUOTED_FIELD`, `EAT_CRNL`). -/

/-- Reader states, as in CPython's `_csv.c`. -/
inductive ReadState where
  | startRecord
  | startField
  | inField
  | inQuoted
  | quoteInQuoted
  | afterCR
deriving DecidableEq

/-- The reader: current state, the characters of the field being read,
the fields of the record being read, and the completed records. -/
structure Reader where
  st : ReadState
  field : List Char
  record : List (List Char)
  rows : List (List (List Char))
deriving DecidableEq

/-- Transition at the start of a record: a bare terminator yields an
empty record, a delimiter opens a record whose first field is empty, a
quote opens a quoted field, anything else starts an unquoted field. -/
def stepStart (r : Reader) (c : Char) : Reader :=
  if c = '\r' then { r with st := .afterCR, record := [], rows := r.rows ++ [r.record] }
  else if c = '\n' then { r with st := .startRecord, record := [], rows := r.rows ++ [r.record] }
  else if c = ',' then { r with st := .startField, record := r.record ++ [[]] }
  else if c = '"' then { r with st := .inQuoted }
  else { r with st := .inField, field := [c] }

/-- One character of input. -/
def step (r : Reader) (c : Char) : Reader :=
  match r.st with
  | .startRecord => stepStart r c
  | .startField =>
    if c = '\r' then
      ⟨.afterCR, [], [], r.rows ++ [r.record ++ [r.field]]⟩
    else if c = '\n' then
      ⟨.startRecord, [], [], r.rows ++ [r.record ++ [r.field]]⟩
    else if c = ',' then { r with record := r.record ++ [r.field], field := [] }
    else if c = '"' then { r with st := .inQuoted }
    else { r with st := .inField, field := r.field ++ [c] }
  | .inField =>
    if c = '\r' then
      ⟨.afterCR, [], [], r.rows ++ [r.record ++ [r.field]]⟩
    else if c = '\n' then
      ⟨.startRecord, [], [], r.rows ++ [r.record ++ [r.field]]⟩
    else if c = ',' then { r with st := .startField, record := r.record ++ [r.field], field := [] }
    else { r with field := r.field ++ [c] }
  | .inQuoted =>
    if c = '"' then { r with st := .quoteInQuoted }
    else { r with field := r.field ++ [c] }
  | .quoteInQuoted =>
    if c = '"' then { r with st := .inQuoted, field := r.field ++ [c] }
    else if c = ',' then { r with st := .startField, record := r.record ++ [r.field], field := [] }
    else if c = '\r' then
      ⟨.afterCR, [], [], r.rows ++ [r.record ++ [r.field]]⟩
    else if c = '\n' then
      ⟨.startRecord, [], [], r.rows ++ [r.record ++ [r.field]]⟩
    else { r with st := .inField, field := r.field ++ [c] }
  | .afterCR =>
    if c = '\n' then { r with st := .startRecord }
    else stepStart { r with st := .startRecord } c

/-- End of input: a record still being read is flushed. -/
def finalize (r : Reader) : List (List (List Char)) :=
  match r.st with
  | .startRecord => r.rows
  | .afterCR => r.rows
  | _ => r.rows ++ [r.record ++ [r.field]]

/-- The reader's initial state. -/
def initReader : Reader := ⟨.startRecord, [], [], []⟩

/-- Parse a whole CSV text into its records of fields. -/
def parseCSV (l : List Char) : List (List (List Char)) :=
  finalize (l.foldl step initReader)

/-- The text of every cell of a sheet, row by row: what a faithful
conversion must let a CSV reader recover. -/
def sheetText (sheet : List (List CellValue)) : List (List (List Char)) :=
  sheet.map (fun row => row.map cellText)

/-! ### Round trip: the reader recovers exactly what the writer wrote -/

theorem not_special (c : Char) (h : isSpecialChar c = false) :
    c ≠ ',' ∧ c ≠ '"' ∧ c ≠ '\r' ∧ c ≠ '\n' := by
  simp [isSpecialChar] at h
  exact ⟨h.1.1.1, h.1.1.2, h.1.2, h.2⟩

theorem step_inQuoted_quote (f : List Char) (rec : List (List Char))
    (rows : List (List (List Char))) :
    step ⟨.inQuoted, f, rec, rows⟩ '"' = ⟨.quoteInQuoted, f, rec, rows⟩ := rfl

theorem step_quoteInQuoted_quote (f : List Char) (rec : List (List Char))
    (rows : List (List (List Char))) :
    step ⟨.quoteInQuoted, f, rec, rows⟩ '"' = ⟨.inQuoted, f ++ ['"'], rec, rows⟩ := rfl

theorem step_inQuoted_other (f : List Char) (rec : List (List Char))
    (rows : List (List (List Char))) (c : Char) (hc : c ≠ '"') :
    step ⟨.inQuoted, f, rec, rows⟩ c = ⟨.inQuoted, f ++ [c], rec, rows⟩ := by
  simp [step, hc]

/-- Folding the escaped body of a quoted field from inside the quotes
appends exactly the original field text. -/
theorem foldl_escapeQuotes (t : List Char) : ∀ (f : List Char) (rec : List (List Char))
    (rows : List (List (List Char))),
    List.foldl step ⟨.inQuoted, f, rec, rows⟩ (escapeQuotes t) = ⟨.inQuoted, f ++ t, rec, rows⟩ := by
  induction t with
  | nil => intro f rec rows; simp [escapeQuotes]
  | cons c cs ih =>
    intro f rec rows
    by_cases hc : c = '"'
    · subst hc
      rw [show escapeQuotes ('"' :: cs) = '"' :: '"' :: escapeQuotes cs from rfl,
        List.foldl_cons, List.foldl_cons, step_inQuoted_quote, step_quoteInQuoted_quote, ih]
      simp
    · rw [show escapeQuotes (c :: cs) = c :: escapeQuotes cs from by
          rw [escapeQuotes, if_neg hc],
        List.foldl_cons, step_inQuoted_other f rec rows c hc, ih]
      simp

/-- Folding plain (never-quoted) characters inside an unquoted field
appends them to the field. -/
theorem foldl_inField_plain (t : List Char) : ∀ (f : List Char) (rec : List (List Char))
    (rows : List (List (List Char))), (∀ c ∈ t, isSpecialChar c = false) →
    List.foldl step ⟨.inField, f, rec, rows⟩ t = ⟨.inField, f ++ t, rec, rows⟩ := by
  induction t with
  | nil => intro f rec rows _; simp
  | cons c cs ih =>
    intro f rec rows hspec
    have hc := not_special c (hspec c (by simp))
    rw [List.foldl_cons]
    rw [show step ⟨.inField, f, rec, rows⟩ c = ⟨.inField, f ++ [c], rec, rows⟩ from by
      simp [step, hc.1, hc.2.2.1, hc.2.2.2]]
    rw [ih (f ++ [c]) rec rows (fun x hx => hspec x (by simp [hx]))]
    simp

/-- Reading an unquoted rendered field from the start of a field (or of a
record) leaves the reader inside an unquoted field holding exactly the
field text. -/
theorem foldl_entry_unquoted (st : ReadState)
    (hst : st = .startRecord ∨ st = .startField) (t : List Char)
    (hq : needsQuote t = false) (hne : t ≠ []) (rec : List (List Char))
    (rows : List (List (List Char))) :
    List.foldl step ⟨st, [], rec, rows⟩ t = ⟨.inField, t, rec, rows⟩ := by
  cases t with
  | nil => exact absurd rfl hne
  | cons c cs =>
    have hspec : ∀ x ∈ c :: cs, isSpecialChar x = false := by
      simpa [needsQuote, List.any_eq_false] using hq
    have hc := not_special c (hspec c (by simp))
    have h1 : step ⟨st, [], rec, rows⟩ c = ⟨.inField, [c], rec, rows⟩ := by
      rcases hst with h | h <;> subst h <;>
        simp [step, stepStart, hc.1, hc.2.1, hc.2.2.1, hc.2.2.2]
    rw [List.foldl_cons, h1,
      foldl_inField_plain cs [c] rec rows (fun x hx => hspec x (by simp [hx]))]
    rfl

/-- Reading a quoted rendered field from the start of a field (or of a
record) leaves the reader just after the closing quote, holding exactly
the field text. -/
theorem foldl_entry_quoted (st : ReadState)
    (hst : st = .startRecord ∨ st = .startField) (t : List Char)
    (hq : needsQuote t = true) (rec : List (List Char))
    (rows : List (List (List Char))) :
    List.foldl step ⟨st, [], rec, rows⟩ (renderField t) = ⟨.quoteInQuoted, t, rec, rows⟩ := by
  rw [renderField, if_pos hq]
  have h1 : step ⟨st, [], rec, rows⟩ '"' = ⟨.inQuoted, [], rec, rows⟩ := by
    rcases hst with h | h <;> subst h <;> rfl
  rw [List.foldl_cons, h1, List.foldl_append, foldl_escapeQuotes]
  rfl

/-- Reading one rendered record body followed by the line terminator,
entered at the start of a field (or, away from the degenerate
single-empty-field shape, at the start of a record), completes exactly
one record made of the pending fields followed by the record's fields. -/
theorem foldl_record_aux : ∀ (texts : List (List Char)), texts ≠ [] →
    ∀ (st : ReadState), st = .startRecord ∨ st = .startField →
    st = .startField ∨ texts ≠ [[]] →
    ∀ (rec : List (List Char)) (rows : List (List (List Char))),
    List.foldl step ⟨st, [], rec, rows⟩ (renderRecordBody texts ++ crlf) =
      ⟨.startRecord, [], [], rows ++ [rec ++ texts]⟩ := by
  intro texts
  induction texts with
  | nil => intro h; exact absurd rfl h
  | cons t ts ih =>
    intro _ st hst hok rec rows
    cases ts with
    | nil =>
      rw [show renderRecordBody [t] = renderField t from rfl]
      by_cases hq : needsQuote t
      · rw [List.foldl_append, foldl_entry_quoted st hst t hq rec rows]
        rfl
      · by_cases hn : t = []
        · subst hn
          rcases hok with h | h

          · subst h
            rw [show renderField [] = [] from rfl, List.nil_append]
            rfl
          · exact absurd rfl h
        · rw [show renderField t = t from by rw [renderField, if_neg hq],
            List.foldl_append,
            foldl_entry_unquoted st hst t (by simpa using hq) hn rec rows]
          rfl
    | cons t2 ts2 =>
      rw [show renderRecordBody (t :: t2 :: ts2) =
            renderField t ++ ',' :: renderRecordBody (t2 :: ts2) from rfl,
        List.append_assoc]
      by_cases hq : needsQuote t
      · rw [List.foldl_append, foldl_entry_quoted st hst t hq rec rows]
        rw [show (',' :: renderRecordBody (t2 :: ts2)) ++ crlf =
              ',' :: (renderRecordBody (t2 :: ts2) ++ crlf) from rfl]
        rw [List.foldl_cons,
          show step ⟨.quoteInQuoted, t, rec, rows⟩ ',' =
            ⟨.startField, [], rec ++ [t], rows⟩ from rfl]
        rw [ih (by simp) .startField (Or.inr rfl) (Or.inl rfl) (rec ++ [t]) rows]
        simp
      · by_cases hn : t = []
        · subst hn
          rw [show renderField [] = [] from rfl, List.nil_append]
          rw [show (',' :: renderRecordBody (t2 :: ts2)) ++ crlf =
              ',' :: (renderRecordBody (t2 :: ts2) ++ crlf) from rfl]
          have h1 : step ⟨st, [], rec, rows⟩ ',' = ⟨.startField, [], rec ++ [[]], rows⟩ := by
            rcases hst with h | h <;> subst h <;> rfl
          rw [List.foldl_cons, h1,
            ih (by simp) .startField (Or.inr rfl) (Or.inl rfl) (rec ++ [[]]) rows]
          simp
        · rw [show renderField t = t from by rw [renderField, if_neg hq],
            List.foldl_append,
            foldl_entry_unquoted st hst t (by simpa using hq) hn rec rows]
          rw [show (',' :: renderRecordBody (t2 :: ts2)) ++ crlf =
              ',' :: (renderRecordBody (t2 :: ts2) ++ crlf) from rfl]
          rw [List.foldl_cons,
            show step ⟨.inField, t, rec, rows⟩ ',' =
              ⟨.startField, [], rec ++ [t], rows⟩ from rfl]
          rw [ih (by simp) .startField (Or.inr rfl) (Or.inl rfl) (rec ++ [t]) rows]
          simp

/-- Reading one written record from a clean reader appends exactly the
row's cell texts as one more parsed record. -/
theorem foldl_writerow (row : List CellValue) (rows : List (List (List Char))) :
    List.foldl step ⟨.startRecord, [], [], rows⟩ (writerow row) =
      ⟨.startRecord, [], [], rows ++ [row.map cellText]⟩ := by
  rcases htexts : row.map cellText with _ | ⟨t, ts⟩
  · rw [writerow, htexts]
    rfl
  · by_cases hsingle : (t :: ts : List (List Char)) = [[]]
    · rw [writerow, htexts, hsingle, if_pos rfl]
      rw [show ((t :: ts : List (List Char))) = [[]] from hsingle] at htexts
      rfl
    · rw [writerow, htexts, if_neg hsingle]
      exact foldl_record_aux (t :: ts) (by simp) .startRecord (Or.inl rfl)
        (Or.inr hsingle) [] rows

/-- Reading the written text of any list of rows from a clean reader
appends those rows' cell texts, record by record. -/
theorem foldl_writerows (rs : List (List CellValue)) : ∀ (rows : List (List (List Char))),
    List.foldl step ⟨.startRecord, [], [], rows⟩ ((rs.map writerow).flatten) =
      ⟨.startRecord, [], [], rows ++ sheetText rs⟩ := by
  induction rs with
  | nil => intro rows; simp [sheetText]
  | cons r rs2 ih =>
    intro rows
    rw [show ((r :: rs2).map writerow).flatten = writerow r ++ (rs2.map writerow).flatten from by
      simp]
    rw [List.foldl_append, foldl_writerow, ih]
    simp [sheetText]

/-- Round trip: parsing the writer's output recovers the text of every
cell the program read through `iter_rows`, row by row and field by
field. -/
theorem parseCSV_csvContent (sheet : List (List CellValue)) :
    parseCSV (csvContent sheet) = sheetText (iter_rows sheet) := by
  rw [csvContent, parseCSV, show initReader = (⟨.startRecord, [], [], []⟩ : Reader) from rfl,
    foldl_writerows]
  rfl

/-- Every row of a sheet is at most the sheet's bounding-box width. -/
theorem length_le_max_column (sheet : List (List CellValue)) :
    ∀ row ∈ sheet, row.length ≤ max_column sheet := by
  induction sheet with
  | nil => intro row h; cases h
  | cons r rs ih =>
    intro row h
    rw [show max_column (r :: rs) = max r.length (max_column rs) from rfl]
    rcases List.mem_cons.mp h with h | h
    · subst h; exact le_max_left _ _
    · exact le_trans (ih row h) (le_max_right _ _)

/-- The cell texts of a padded row: the row's own cell texts followed by
empty fields. -/
theorem cellText_padRow (w : Nat) (row : List CellValue) :
    (padRow w row).map cellText = row.map cellText ++ List.replicate (w - row.length) [] := by
  rw [padRow, List.map_append, List.map_replicate]
  rfl

/-! ### Shape of a successful conversion -/

/-- When the source holds a workbook with at least one sheet, the
converter succeeds and the resulting filesystem maps the destination to
the written text of the first sheet and every other path to what it held
before. -/
theorem convert_success (fs : FS) (src dst : Path) (wb : Workbook)
    (sheet : List (List CellValue)) (rest : List (List (List CellValue)))
    (hsrc : fs src = some (.xlsx wb)) (hws : wb.worksheets = sheet :: rest) :
    convert_excel_to_csv fs src dst =
      (.ok (), fun p => if p = dst then some (.text (csvContent sheet)) else fs p) := by
  simp only [convert_excel_to_csv, load_workbook, hsrc, hws]

/-- When loading the workbook raises, the converter re-raises that very
error and returns the filesystem unchanged. -/
theorem convert_load_error (fs : FS) (src dst : Path) (e : ConvError)
    (hload : load_workbook fs src = .error e) :
    convert_excel_to_csv fs src dst = (.error e, fs) := by
  simp only [convert_excel_to_csv, hload]

/-! ### Concrete fixtures used by the witnesses -/

/-- The sheet of the spec's end-to-end example. -/
def sheetEx : List (List CellValue) :=
  [[.str "id".data, .str "name".data],
   [.int 1, .str "Alice".data],
   [.int 2, .str "Bob".data]]

/-- A two-sheet workbook whose first sheet is `sheetEx`. -/
def wbEx : Workbook := ⟨[sheetEx, [[.int 99]]]⟩

/-- A filesystem holding only `wbEx` at `store.xlsx`. -/
def fsEx : FS := fun p => if p = "store.xlsx" then some (.xlsx wbEx) else none

/-- A sheet with ragged rows: three cells, then one. -/
def sheetRag : List (List CellValue) := [[.int 1, .str "a".data, .int 2], [.int 9]]

/-- A one-sheet workbook around `sheetRag`. -/
def wbRag : Workbook := ⟨[sheetRag]⟩

/-- A filesystem holding only `wbRag` at `device.xlsx`. -/
def fsRag : FS := fun p => if p = "device.xlsx" then some (.xlsx wbRag) else none

/-- The spec's blank-cell example row `(3, "")` plus a `None` cell row. -/
def sheetBlank : List (List CellValue) := [[.int 3, .str []], [.int 4, .empty]]

/-- A one-sheet workbook around `sheetBlank`. -/
def wbBlank : Workbook := ⟨[sheetBlank]⟩

/-- A filesystem holding only `wbBlank` at `blank.xlsx`. -/
def fsBlank : FS := fun p => if p = "blank.xlsx" then some (.xlsx wbBlank) else none

/-- A sheet whose fields contain the delimiter, the quote character and a
line break, plus a negative number and an empty cell. -/
def sheetQuote : List (List CellValue) :=
  [[.str "a,b".data], [.str "say \"hi\"".data], [.str "l1\r\nl2".data], [.int (-7), .empty]]

/-- A one-sheet workbook around `sheetQuote`. -/
def wbQuote : Workbook := ⟨[sheetQuote]⟩

/-- A filesystem holding only `wbQuote` at `q.xlsx`. -/
def fsQuote : FS := fun p => if p = "q.xlsx" then some (.xlsx wbQuote) else none

/-! ### The claims -/

/-- C1: for every workbook whose first sheet contains N rows,
`convert(source_path, destination_path)` writes exactly N records to the
destination file, and the i-th output record corresponds to the i-th
source row (row order preserved exactly): it holds that row's cell texts
in order, followed by the empty fields `iter_rows` pads to the sheet's
bounding-box width. -/
theorem convert_preserves_record_count_and_order
    (fs : FS) (src dst : Path) (wb : Workbook)
    (sheet : List (List CellValue)) (rest : List (List (List CellValue)))
    (hsrc : fs src = some (.xlsx wb)) (hws : wb.worksheets = sheet :: rest) :
    (convert_excel_to_csv fs src dst).1 = .ok () ∧
    (convert_excel_to_csv fs src dst).2 dst = some (.text (csvContent sheet)) ∧
    (parseCSV (csvContent sheet)).length = sheet.length ∧
    ∀ (i : Nat) (h2 : i < sheet.length),
      (parseCSV (csvContent sheet))[i]? = some ((sheet.get ⟨i, h2⟩).map cellText ++
        List.replicate (max_column sheet - (sheet.get ⟨i, h2⟩).length) []) := by
  have h := convert_success fs src dst wb sheet rest hsrc hws
  refine ⟨by rw [h], by rw [h]; simp, ?_, ?_⟩
  · rw [parseCSV_csvContent]
    simp [sheetText, iter_rows]
  · intro i h2
    rw [parseCSV_csvContent, sheetText, iter_rows]
    simp [List.getElem?_map, List.getElem?_eq_getElem h2, List.get_eq_getElem,
      cellText_padRow]

/-- Witness for C1 at the spec's three-row example workbook. -/
theorem convert_preserves_record_count_and_order_witness :
    (convert_excel_to_csv fsEx "store.xlsx" "store.csv").1 = .ok () ∧
    (convert_excel_to_csv fsEx "store.xlsx" "store.csv").2 "store.csv" =
      some (.text (csvContent sheetEx)) ∧
    (parseCSV (csvContent sheetEx)).length = 3 ∧
    (parseCSV (csvContent sheetEx))[2]? = some ["2".data, "Bob".data] := by
  obtain ⟨h1, h2, h3, h4⟩ := convert_preserves_record_count_and_order fsEx
    "store.xlsx" "store.csv" wbEx sheetEx [[[.int 99]]] rfl rfl
  exact ⟨h1, h2, h3, by rw [h4 2 (by decide)]; rfl⟩

/-- C2, refuted as stated: `iter_rows` pads every row to the sheet's
bounding-box width, so for the ragged sheet `[[1, a, 2], [9]]` the
program writes the second record as `9,,` — three fields for a one-cell
source row, not one. -/
theorem convert_ragged_row_padded_cex :
    (convert_excel_to_csv fsRag "device.xlsx" "device.csv").1 = .ok () ∧
    (convert_excel_to_csv fsRag "device.xlsx" "device.csv").2 "device.csv" =
      some (.text (csvContent sheetRag)) ∧
    (parseCSV (csvContent sheetRag))[1]?.map List.length = some 3 ∧
    sheetRag[1]?.map List.length = some 1 := by
  have h := convert_success fsRag "device.xlsx" "device.csv" wbRag sheetRag [] rfl rfl
  refine ⟨by rw [h], by rw [h]; simp, ?_, by rfl⟩
  rw [parseCSV_csvContent]
  rfl

/-- C2 (amended): for every workbook and every row of its first sheet,
the number of fields in the corresponding output record equals the
sheet's bounding-box width (`max_column`, the maximum cell count over
the sheet's rows), not the row's own cell count: `iter_rows` pads
shorter rows with trailing empty fields to that common width, never
truncating, and each row's own cell texts are preserved in order as a
prefix of its record.  For rectangular sheets this coincides with the
original claim. -/
theorem convert_field_count_is_max_column
    (fs : FS) (src dst : Path) (wb : Workbook)
    (sheet : List (List CellValue)) (rest : List (List (List CellValue)))
    (hsrc : fs src = some (.xlsx wb)) (hws : wb.worksheets = sheet :: rest) :
    (convert_excel_to_csv fs src dst).1 = .ok () ∧
    (convert_excel_to_csv fs src dst).2 dst = some (.text (csvContent sheet)) ∧
    ∀ (i : Nat) (h2 : i < sheet.length),
      (parseCSV (csvContent sheet))[i]? = some ((sheet.get ⟨i, h2⟩).map cellText ++
        List.replicate (max_column sheet - (sheet.get ⟨i, h2⟩).length) []) ∧
      (parseCSV (csvContent sheet))[i]?.map List.length = some (max_column sheet) := by
  have h := convert_success fs src dst wb sheet rest hsrc hws
  refine ⟨by rw [h], by rw [h]; simp, ?_⟩
  intro i h2
  have hrec : (parseCSV (csvContent sheet))[i]? = some ((sheet.get ⟨i, h2⟩).map cellText ++
      List.replicate (max_column sheet - (sheet.get ⟨i, h2⟩).length) []) := by
    rw [parseCSV_csvContent, sheetText, iter_rows]
    simp [List.getElem?_map, List.getElem?_eq_getElem h2, List.get_eq_getElem,
      cellText_padRow]
  have hle := length_le_max_column sheet (sheet.get ⟨i, h2⟩) (List.get_mem sheet i h2)
  have hlen : ((sheet.get ⟨i, h2⟩).map cellText ++
      List.replicate (max_column sheet - (sheet.get ⟨i, h2⟩).length) []).length =
      max_column sheet := by
    simp only [List.length_append, List.length_map, List.length_replicate]
    omega
  exact ⟨hrec, by rw [hrec]; exact congrArg some hlen⟩

/-- Witness for the amended C2 at the ragged sheet `[[1, a, 2], [9]]`:
both records come out three fields wide. -/
theorem convert_field_count_is_max_column_witness :
    (convert_excel_to_csv fsRag "device.xlsx" "device.csv").1 = .ok () ∧
    (convert_excel_to_csv fsRag "device.xlsx" "device.csv").2 "device.csv" =
      some (.text (csvContent sheetRag)) ∧
    (parseCSV (csvContent sheetRag))[0]?.map List.length = some 3 ∧
    (parseCSV (csvContent sheetRag))[1]?.map List.length = some 3 := by
  obtain ⟨h1, h2, h3⟩ := convert_field_count_is_max_column fsRag
    "device.xlsx" "device.csv" wbRag sheetRag [] rfl rfl
  exact ⟨h1, h2, by rw [(h3 0 (by decide)).2]; rfl, by rw [(h3 1 (by decide)).2]; rfl⟩

/-- C3: for every workbook row containing a missing or blank cell,
convert writes that cell as an empty field in the output record (not an
error, not a dropped column); e.g. a row `(3, "")` is written as the
record `3,`. -/
theorem convert_blank_cell_yields_empty_field
    (fs : FS) (src dst : Path) (wb : Workbook)
    (sheet : List (List CellValue)) (rest : List (List (List CellValue)))
    (hsrc : fs src = some (.xlsx wb)) (hws : wb.worksheets = sheet :: rest)
    (i j : Nat) (hi : i < sheet.length) (hj : j < (sheet.get ⟨i, hi⟩).length)
    (hcell : (sheet.get ⟨i, hi⟩).get ⟨j, hj⟩ = CellValue.empty ∨
      (sheet.get ⟨i, hi⟩).get ⟨j, hj⟩ = CellValue.str []) :
    (convert_excel_to_csv fs src dst).1 = .ok () ∧
    (convert_excel_to_csv fs src dst).2 dst = some (.text (csvContent sheet)) ∧
    ∃ rec : List (List Char), (parseCSV (csvContent sheet))[i]? = some rec ∧
      rec[j]? = some [] := by
  have h := convert_success fs src dst wb sheet rest hsrc hws
  refine ⟨by rw [h], by rw [h]; simp,
    (sheet.get ⟨i, hi⟩).map cellText ++
      List.replicate (max_column sheet - (sheet.get ⟨i, hi⟩).length) [], ?_, ?_⟩
  · rw [parseCSV_csvContent, sheetText, iter_rows]
    simp [List.getElem?_map, List.getElem?_eq_getElem hi, List.get_eq_getElem,
      cellText_padRow]
  · have hj' : j < (List.map cellText (sheet.get ⟨i, hi⟩)).length := by simpa using hj
    rw [List.getElem?_append, if_pos hj', List.getElem?_eq_getElem hj']
    have hmap : (List.map cellText (sheet.get ⟨i, hi⟩))[j] =
        cellText ((sheet.get ⟨i, hi⟩).get ⟨j, hj⟩) := by
      simp [List.getElem_map, List.get_eq_getElem]
    rw [hmap]
    rcases hcell with h | h <;> rw [h] <;> rfl

/-- Witness for C3 at the spec's example: the row `(3, "")` comes back as
the two fields `3` and the empty field, and the written record is the
text `3,` followed by the terminator. -/
theorem convert_blank_cell_yields_empty_field_witness :
    ((convert_excel_to_csv fsBlank "blank.xlsx" "blank.csv").1 = .ok () ∧
    (convert_excel_to_csv fsBlank "blank.xlsx" "blank.csv").2 "blank.csv" =
      some (.text (csvContent sheetBlank)) ∧
    ∃ rec : List (List Char), (parseCSV (csvContent sheetBlank))[0]? = some rec ∧
      rec[1]? = some []) ∧
    writerow [CellValue.int 3, CellValue.str []] = ['3', ',', '\r', '\n'] := by
  refine ⟨convert_blank_cell_yields_empty_field fsBlank "blank.xlsx" "blank.csv"
    wbBlank sheetBlank [] rfl rfl 0 1 (by decide) (by decide) (Or.inr rfl), rfl⟩

/-- C4: if `source_path` does not reference an openable workbook (missing
file, corrupt or unsupported format), convert raises an error of the
SourceNotFound/SourceUnreadable kind, propagated to the caller unmodified
with no retry or fallback, and produces no destination file (the
destination is not created). -/
theorem convert_unopenable_source_raises
    (fs : FS) (src dst : Path)
    (hbad : fs src = none ∨ ∃ d, fs src = some d ∧ ∀ wb : Workbook, d ≠ FileData.xlsx wb) :
    ∃ e : ConvError, (e = .sourceNotFound ∨ e = .sourceUnreadable) ∧
      load_workbook fs src = .error e ∧
      convert_excel_to_csv fs src dst = (.error e, fs) ∧
      (fs dst = none → (convert_excel_to_csv fs src dst).2 dst = none) := by
  have hload : ∃ e : ConvError, (e = .sourceNotFound ∨ e = .sourceUnreadable) ∧
      load_workbook fs src = .error e := by
    rcases hbad with h | ⟨d, hd, hne⟩
    · exact ⟨.sourceNotFound, Or.inl rfl, by rw [load_workbook, h]⟩
    · cases d with
      | text c => exact ⟨.sourceUnreadable, Or.inr rfl, by rw [load_workbook, hd]⟩
      | corrupt => exact ⟨.sourceUnreadable, Or.inr rfl, by rw [load_workbook, hd]⟩
      | xlsx wb => exact absurd rfl (hne wb)
  obtain ⟨e, hkind, he⟩ := hload
  have hc := convert_load_error fs src dst e he
  exact ⟨e, hkind, he, hc, fun hnone => by rw [hc]; exact hnone⟩

/-- Witness for C4 at an empty filesystem: the missing source raises
SourceNotFound and the destination stays absent. -/
theorem convert_unopenable_source_raises_witness :
    ∃ e : ConvError, (e = .sourceNotFound ∨ e = .sourceUnreadable) ∧
      load_workbook (fun _ => none) "absent.xlsx" = .error e ∧
      convert_excel_to_csv (fun _ => none) "absent.xlsx" "absent.csv" =
        (.error e, fun _ => none) ∧
      ((fun _ => (none : Option FileData)) "absent.csv" = none →
        (convert_excel_to_csv (fun _ => none) "absent.xlsx" "absent.csv").2 "absent.csv" = none) :=
  convert_unopenable_source_raises (fun _ => none) "absent.xlsx" "absent.csv" (Or.inl rfl)

/-- C5: for every path, `delete_if_exists(path)` returns normally and
never propagates an error to the caller, whatever the failure kind (file
not found, permission denied, any other error); each failure is only
logged/reported. -/
theorem delete_file_never_raises (s : Sys) (p : Path) :
    ∃ r : Sys × List String, delete_file s p = .ok r := by
  rcases hr : os_remove s p with ⟨x, s1⟩
  cases x with
  | ok u =>
    exact ⟨(s1, ["File " ++ p ++ " has been deleted."]), by simp only [delete_file, hr]⟩
  | error e =>
    cases e with
    | fileNotFound =>
      exact ⟨(s1, ["File " ++ p ++ " not found."]), by simp only [delete_file, hr]⟩
    | permissionDenied =>
      exact ⟨(s1, ["Permission denied for deleting " ++ p ++ "."]),
        by simp only [delete_file, hr]⟩
    | other m =>
      exact ⟨(s1, ["An error occurred: " ++ errorMessage (.other m)]),
        by simp only [delete_file, hr]⟩

/-- C6: `delete_if_exists(path)` removes the file when `path` refers to
an existing, deletable file (no file remains at `path` afterwards); when
no file exists at `path` it completes without raising and without any
side effects (idempotent deletion treated as success). -/
theorem delete_file_removes_or_noop (s : Sys) (p : Path) :
    (∀ d : FileData, s.files p = some d → s.deletable p = true → s.osFault p = none →
      ∃ s1 : Sys, ∃ log : List String,
        delete_file s p = .ok (s1, log) ∧ s1.files p = none) ∧
    (s.files p = none → ∃ log : List String, delete_file s p = .ok (s, log)) := by
  constructor
  · intro d hd hdel hfault
    refine ⟨{ s with files := fun q => if q = p then none else s.files q },
      ["File " ++ p ++ " has been deleted."], ?_, by simp⟩
    simp only [delete_file, os_remove, hd, hdel, hfault, if_true]
  · intro hnone
    exact ⟨["File " ++ p ++ " not found."], by simp only [delete_file, os_remove, hnone]⟩

/-- A system with one deletable file at `store.csv`, no permission
restrictions and no pending OS fault. -/
def sysEx : Sys :=
  ⟨fun p => if p = "store.csv" then some (.text ['x']) else none, fun _ => true, fun _ => none⟩

/-- Witness for C6: deleting `store.csv` removes it; deleting the absent
`other.csv` succeeds and leaves the system untouched. -/
theorem delete_file_removes_or_noop_witness :
    (∃ s1 : Sys, ∃ log : List String,
      delete_file sysEx "store.csv" = .ok (s1, log) ∧ s1.files "store.csv" = none) ∧
    (∃ log : List String, delete_file sysEx "other.csv" = .ok (sysEx, log)) :=
  ⟨(delete_file_removes_or_noop sysEx "store.csv").1 (.text ['x']) rfl rfl rfl,
    (delete_file_removes_or_noop sysEx "other.csv").2 rfl⟩

/-- A filesystem with the example workbook at `store.xlsx` and a stale
file already sitting at `store.csv`. -/
def fsPre : FS := fun p =>
  if p = "store.xlsx" then some (.xlsx wbEx)
  else if p = "store.csv" then some (.text ['o', 'l', 'd']) else none

/-- C7: for every workbook, running convert twice with the same
`source_path` and `destination_path` yields byte-identical destination
contents both times; a pre-existing file at `destination_path` is
overwritten rather than appended to or rejected. -/
theorem convert_idempotent_and_overwrites
    (fs : FS) (src dst : Path) (wb : Workbook)
    (sheet : List (List CellValue)) (rest : List (List (List CellValue)))
    (hsrc : fs src = some (.xlsx wb)) (hws : wb.worksheets = sheet :: rest) :
    (convert_excel_to_csv fs src dst).1 = .ok () ∧
    (convert_excel_to_csv fs src dst).2 dst = some (.text (csvContent sheet)) ∧
    (convert_excel_to_csv ((convert_excel_to_csv fs src dst).2) src dst).2 dst =
      some (.text (csvContent sheet)) := by
  have h := convert_success fs src dst wb sheet rest hsrc hws
  have h1 : (convert_excel_to_csv fs src dst).2 =
      fun p => if p = dst then some (.text (csvContent sheet)) else fs p := by rw [h]
  refine ⟨by rw [h], by rw [h1]; simp, ?_⟩
  rw [h1]
  by_cases hsd : src = dst
  · subst hsd
    have hload : load_workbook
        (fun p => if p = src then some (.text (csvContent sheet)) else fs p) src =
        .error .sourceUnreadable := by
      rw [load_workbook]
      simp
    rw [convert_load_error _ src src .sourceUnreadable hload]
    simp
  · have hsrc2 : (fun p => if p = dst then some (.text (csvContent sheet)) else fs p) src =
        some (.xlsx wb) := by simp [hsd, hsrc]
    rw [convert_success _ src dst wb sheet rest hsrc2 hws]
    simp

/-- Witness for C7 at a filesystem where a stale `store.csv` already
exists: both runs leave exactly the written sheet text there. -/
theorem convert_idempotent_and_overwrites_witness :
    (convert_excel_to_csv fsPre "store.xlsx" "store.csv").1 = .ok () ∧
    (convert_excel_to_csv fsPre "store.xlsx" "store.csv").2 "store.csv" =
      some (.text (csvContent sheetEx)) ∧
    (convert_excel_to_csv ((convert_excel_to_csv fsPre "store.xlsx" "store.csv").2)
        "store.xlsx" "store.csv").2 "store.csv" = some (.text (csvContent sheetEx)) :=
  convert_idempotent_and_overwrites fsPre "store.xlsx" "store.csv" wbEx sheetEx
    [[[.int 99]]] rfl rfl

/-- C8: parsing the file produced by convert with a standard
delimited-text (CSV) parser reproduces the first-sheet cell values the
program read — the rows as `iter_rows` yields them, padded to the
bounding box — as text, row by row and field by field, including fields
containing the delimiter, quote character, or line breaks, which are
quoted/escaped by the standard convention. -/
theorem convert_roundtrip
    (fs : FS) (src dst : Path) (wb : Workbook)
    (sheet : List (List CellValue)) (rest : List (List (List CellValue)))
    (hsrc : fs src = some (.xlsx wb)) (hws : wb.worksheets = sheet :: rest) :
    (convert_excel_to_csv fs src dst).1 = .ok () ∧
    (convert_excel_to_csv fs src dst).2 dst = some (.text (csvContent sheet)) ∧
    parseCSV (csvContent sheet) = sheetText (iter_rows sheet) := by
  have h := convert_success fs src dst wb sheet rest hsrc hws
  exact ⟨by rw [h], by rw [h]; simp, parseCSV_csvContent sheet⟩

/-- Witness for C8 at a workbook whose fields contain the delimiter, the
quote character and a CRLF line break; the parse of the written file is
exactly the sheet's cell texts. -/
theorem convert_roundtrip_witness :
    (convert_excel_to_csv fsQuote "q.xlsx" "q.csv").1 = .ok () ∧
    (convert_excel_to_csv fsQuote "q.xlsx" "q.csv").2 "q.csv" =
      some (.text (csvContent sheetQuote)) ∧
    parseCSV (csvContent sheetQuote) = sheetText (iter_rows sheetQuote) :=
  convert_roundtrip fsQuote "q.xlsx" "q.csv" wbQuote sheetQuote [] rfl rfl

/-- A workbook agreeing with `wbEx` on the first sheet but with entirely
different later sheets. -/
def wbOther : Workbook := ⟨[sheetEx, [[.int 7, .str "other".data]], [[.empty]]]⟩

/-- A filesystem holding only `wbOther` at `store.xlsx`. -/
def fsOther : FS := fun p => if p = "store.xlsx" then some (.xlsx wbOther) else none

/-- C9: for every workbook containing one or more sheets, convert reads
only the first sheet in the workbook's defined sheet order; the contents
of all other sheets have no effect on the output. -/
theorem convert_reads_only_first_sheet
    (fs1 fs2 : FS) (src dst : Path) (wb1 wb2 : Workbook)
    (sheet : List (List CellValue)) (rest1 rest2 : List (List (List CellValue)))
    (h1 : fs1 src = some (.xlsx wb1)) (h2 : fs2 src = some (.xlsx wb2))
    (hw1 : wb1.worksheets = sheet :: rest1) (hw2 : wb2.worksheets = sheet :: rest2) :
    (convert_excel_to_csv fs1 src dst).1 = (convert_excel_to_csv fs2 src dst).1 ∧
    (convert_excel_to_csv fs1 src dst).2 dst = (convert_excel_to_csv fs2 src dst).2 dst := by
  have e1 := convert_success fs1 src dst wb1 sheet rest1 h1 hw1
  have e2 := convert_success fs2 src dst wb2 sheet rest2 h2 hw2
  rw [e1, e2]
  simp

/-- Witness for C9: `wbEx` and `wbOther` share only their first sheet,
yet the converter's outcome and its output file agree. -/
theorem convert_reads_only_first_sheet_witness :
    (convert_excel_to_csv fsEx "store.xlsx" "store.csv").1 =
      (convert_excel_to_csv fsOther "store.xlsx" "store.csv").1 ∧
    (convert_excel_to_csv fsEx "store.xlsx" "store.csv").2 "store.csv" =
      (convert_excel_to_csv fsOther "store.xlsx" "store.csv").2 "store.csv" :=
  convert_reads_only_first_sheet fsEx fsOther "store.xlsx" "store.csv" wbEx wbOther
    sheetEx [[[.int 99]]] [[[.int 7, .str "other".data]], [[.empty]]] rfl rfl rfl rfl

/-- A filesystem with unreadable bytes at `transaction.xlsx` and a
pre-existing file at `transaction.csv`. -/
def fsCorrupt : FS := fun p =>
  if p = "transaction.xlsx" then some .corrupt
  else if p = "transaction.csv" then some (.text ['o', 'l', 'd']) else none

/-- C10: convert fully loads the source workbook before it opens
(creates or truncates) the destination path, so when loading the source
fails for any reason — not just a missing file, but also a corrupt or
unsupported workbook — any pre-existing file at `destination_path` is
left byte-for-byte unchanged. -/
theorem convert_load_failure_leaves_destination
    (fs : FS) (src dst : Path) (e : ConvError)
    (hload : load_workbook fs src = .error e) :
    convert_excel_to_csv fs src dst = (.error e, fs) ∧
    (convert_excel_to_csv fs src dst).2 = fs ∧
    ∀ old : FileData, fs dst = some old →
      (convert_excel_to_csv fs src dst).2 dst = some old := by
  have h := convert_load_error fs src dst e hload
  exact ⟨h, by rw [h], fun old hold => by rw [h]; exact hold⟩

/-- Witness for C10: the corrupt `transaction.xlsx` makes the load fail
and the stale `transaction.csv` keeps its exact prior bytes. -/
theorem convert_load_failure_leaves_destination_witness :
    convert_excel_to_csv fsCorrupt "transaction.xlsx" "transaction.csv" =
      (.error .sourceUnreadable, fsCorrupt) ∧
    (convert_excel_to_csv fsCorrupt "transaction.xlsx" "transaction.csv").2
      "transaction.csv" = some (.text ['o', 'l', 'd']) := by
  obtain ⟨h1, h2, h3⟩ := convert_load_failure_leaves_destination fsCorrupt
    "transaction.xlsx" "transaction.csv" .sourceUnreadable rfl
  exact ⟨h1, h3 (.text ['o', 'l', 'd']) rfl⟩

end SumupPipeline
